import Mathlib

/-
Verification development for the FAITH-WALK repository's real-time audio
streaming engine (src/components/AudioCompanion.tsx and the audio helpers in
src/services), together with the history cache (src/services/cache.ts).

Conventions of the shallow embedding:
- Output-clock times and audio sample values are modelled as rationals (ℚ);
  the JavaScript source computes with doubles, and all the properties below
  concern the exact arithmetic the expressions denote.
- JavaScript `Math.floor` is Int.floor, `Math.round` is `round`; the coercion
  performed by storing into an Int16Array (truncation toward zero followed by
  wrap-around modulo 2^16 into the signed range) is modelled explicitly.
- Event-driven mutable state (React refs) becomes explicit state records with
  one step function per event handler.
-/

/-! ## Playback scheduler (src/components/AudioCompanion.tsx, onmessage handler)

State of the scheduler: the playback cursor `nextStartTimeRef` and the set of
in-flight scheduled buffers `sourcesRef`.  A scheduled buffer is recorded as a
pair `(start, effDur)` where `effDur = audioBuffer.duration / playbackSpeed`
is the span it occupies on the output clock. -/

structure SchedState where
  nextStart : ℚ
  scheduled : List (ℚ × ℚ)
  deriving DecidableEq, Repr

/-- Events seen by the scheduler: an inbound decoded audio frame (with the
output-clock reading `now` taken at the start of the handler, the decoded
buffer duration, and the current playback speed), the `ended` callback of a
buffer source, and the serverContent.interrupted signal. -/
inductive SchedEvent where
  | frame (now dur speed : ℚ)
  | ended (b : ℚ × ℚ)
  | interrupt (now : ℚ)
  deriving DecidableEq, Repr

/-- One step of the scheduler, transcribed from AudioCompanion.tsx:
frame (lines 120-137): `if (nextStartTimeRef.current < currentTime)
nextStartTimeRef.current = currentTime;` then `source.start(nextStartTimeRef
.current); nextStartTimeRef.current += (audioBuffer.duration / playbackSpeed);
sourcesRef.current.add(source);`.
ended (lines 131-134): `sourcesRef.current.delete(source)`.
interrupt (lines 151-156): `sourcesRef.current.forEach(src => src.stop());
sourcesRef.current.clear(); nextStartTimeRef.current =
outputContextRef.current.currentTime;`. -/
def schedStep (s : SchedState) : SchedEvent → SchedState
  | .frame now dur speed =>
      let ns := if s.nextStart < now then now else s.nextStart
      { nextStart := ns + dur / speed, scheduled := (ns, dur / speed) :: s.scheduled }
  | .ended b => { s with scheduled := s.scheduled.erase b }
  | .interrupt now => { nextStart := now, scheduled := [] }

/-- Run the scheduler over a sequence of events. -/
def schedRun (s : SchedState) (evts : List SchedEvent) : SchedState :=
  evts.foldl schedStep s

/-- Two buffers occupying half-open spans of output-clock time intersect. -/
def bufOverlap (a b : ℚ × ℚ) : Prop :=
  max a.1 b.1 < min (a.1 + a.2) (b.1 + b.2)

/-- An event whose effective duration is nonnegative (true of every decoded
audio buffer played at a positive speed). -/
def durNonneg : SchedEvent → Prop
  | .frame _ dur speed => 0 ≤ dur / speed
  | _ => True

/-- An event that is not the interruption signal. -/
def notInterrupt : SchedEvent → Prop
  | .interrupt _ => False
  | _ => True

/-- Scheduler invariant: the in-flight buffers are pairwise non-overlapping
and all of them end at or before the playback cursor. -/
def SchedInv (s : SchedState) : Prop :=
  s.scheduled.Pairwise (fun a b => ¬ bufOverlap a b) ∧
  ∀ b ∈ s.scheduled, b.1 + b.2 ≤ s.nextStart

/-! ## Session lifecycle (src/components/AudioCompanion.tsx)

The externally observable connection status plus the resource handles owned by
a session.  React `useState`/`useRef` cells become record fields; each handler
(`stopSession`, the `onopen`/`onerror` callbacks, the `catch` of
`startSession`) becomes a function on the record.  The in-flight scheduled
buffers are abstracted to their count here (their timing lives in
`SchedState`). -/

inductive ConnectionStatus where
  | disconnected | connecting | connected | error
  deriving DecidableEq, Repr

structure SessionState where
  status : ConnectionStatus
  isActive : Bool
  errorMessage : String
  processorConnected : Bool
  inputSourceConnected : Bool
  micTracksLive : Bool
  inputCtxOpen : Bool
  outputCtxOpen : Bool
  sourcesCount : Nat
  transportCloseRequested : Bool
  deriving DecidableEq, Repr

/-- Teardown, transcribed from `stopSession` (AudioCompanion.tsx lines
201-212): disconnect the processor and input source, stop the microphone
tracks, close the input context, stop and clear all scheduled sources, close
the output context, request the transport session close, and unconditionally
set `isActive = false` and `status = 'disconnected'`.  Every potentially
throwing call in the source is wrapped in `try`/`.catch`, so the handler is a
total function; `errorMessage` is left untouched. -/
def stopSession (s : SessionState) : SessionState :=
  { s with
    processorConnected := false
    inputSourceConnected := false
    micTracksLive := false
    inputCtxOpen := false
    sourcesCount := 0
    outputCtxOpen := false
    transportCloseRequested := true
    isActive := false
    status := .disconnected }

/-- The transport `onopen` callback (lines 110-115): set status `connected`,
`isActive = true`, and wire the capture pipeline via `setupAudioInput` (lines
172-199), which reconnects the processor and input source.  The source has no
staleness check: `setupAudioInput`'s only guard is that `inputContextRef
.current` is non-null, and `stopSession` never nulls that ref, so the wiring
happens even when the callback fires after a teardown. -/
def handleOpen (s : SessionState) : SessionState :=
  { s with
    status := .connected
    isActive := true
    processorConnected := true
    inputSourceConnected := true }

/-- The transport `onerror` callback (line 159): set status `error` and an
error message, then run `stopSession`. -/
def handleTransportError (s : SessionState) : SessionState :=
  stopSession { s with status := .error, errorMessage := "Connection error." }

/-- The `catch` block of `startSession` (lines 165-169), reached on any
acquisition or handshake failure: set status `error` and the failure's
message, then run `stopSession`. -/
def handleStartFailure (s : SessionState) (msg : String) : SessionState :=
  stopSession { s with status := .error, errorMessage := msg }

/-- A session mid-connection: `startSession` has set status `connecting` and
acquired the audio contexts and the microphone stream, but the transport has
not reported open yet. -/
def connectingState : SessionState :=
  { status := .connecting
    isActive := false
    errorMessage := ""
    processorConnected := false
    inputSourceConnected := false
    micTracksLive := true
    inputCtxOpen := true
    outputCtxOpen := true
    sourcesCount := 0
    transportCloseRequested := false }

/-! ## Transcript accumulator (src/components/AudioCompanion.tsx, lines 141-156)

Two append-only text buffers fed by the transcription deltas of the inbound
message stream; `saveToCache('LIVE', ...)` calls are modelled as emitted
records. -/

/-- JavaScript String.prototype.trim: strip leading and trailing whitespace.
(The core library's String.trim is extensionally the same but is defined by
byte-position recursion that the kernel cannot evaluate, so the character-list
form is used throughout this development.) -/
def jsTrim (s : String) : String :=
  ⟨((s.data.dropWhile Char.isWhitespace).reverse.dropWhile Char.isWhitespace).reverse⟩

structure TranscriptState where
  user : String
  model : String
  deriving DecidableEq, Repr

structure SaveRecord where
  tool : String
  user : String
  model : String
  language : String
  deriving DecidableEq, Repr

inductive TranscriptEvent where
  | inputDelta (t : String)
  | outputDelta (t : String)
  | turnComplete
  | interrupted
  deriving DecidableEq, Repr

/-- One step of the transcript handling in the `onmessage` callback, returning
the new accumulator state and the list of history saves the step emits.
Deltas append (lines 141-142).  `turnComplete` (lines 144-149) flushes the
pair when either side is non-blank and resets both accumulators.  The
`interrupted` branch (lines 151-156) touches only the playback state: the
accumulators are left as they are and nothing is saved. -/
def transcriptStep (language : String) (s : TranscriptState) :
    TranscriptEvent → TranscriptState × List SaveRecord
  | .inputDelta t => ({ s with user := s.user ++ t }, [])
  | .outputDelta t => ({ s with model := s.model ++ t }, [])
  | .turnComplete =>
      if jsTrim s.user ≠ "" ∨ jsTrim s.model ≠ "" then
        (⟨"", ""⟩, [⟨"LIVE", s.user, s.model, language⟩])
      else
        (⟨"", ""⟩, [])
  | .interrupted => (s, [])

/-! ## History cache (src/services/cache.ts, saveToCache) -/

structure HistoryItem where
  id : String
  timestamp : Nat
  tool : String
  query : String
  result : String
  language : String
  deriving DecidableEq, Repr

/-- JavaScript `toLowerCase`, modelled characterwise. -/
def lowerStr (s : String) : String := ⟨s.data.map Char.toLower⟩

/-- Transcription of `saveToCache` (cache.ts lines 14-40): build the new item
with the trimmed query and `Date.now()` (passed here as `now`) as id and
timestamp, drop every existing item whose query matches the new one
case-insensitively, prepend, and keep at most 50 items. -/
def saveToCache (now : Nat) (tool query result language : String)
    (existing : List HistoryItem) : List HistoryItem :=
  let newItem : HistoryItem :=
    { id := toString now, timestamp := now, tool := tool
      query := jsTrim query, result := result, language := language }
  let filtered :=
    existing.filter (fun item => lowerStr item.query != lowerStr (jsTrim query))
  (newItem :: filtered).take 50

/-! ## PCM frame encoder/decoder (src/services/gemini.ts variant in
src/unnamed/part_003, `createBlob` lines 339-344 and `decodeAudioData` lines
358-366)

`createBlob` stores `data[i] * 32768` into an `Int16Array`: the JavaScript
coercion truncates toward zero and wraps modulo 2^16 into the signed 16-bit
range.  The bytes of the array (little-endian) are then base64-wrapped; since
`btoa`/`atob` are exact inverses, the transport text wrapping is dropped here
and the codec is modelled at the byte level. -/

/-- JavaScript ToInteger: truncation toward zero. -/
def jsTrunc (q : ℚ) : ℤ := if 0 ≤ q then ⌊q⌋ else ⌈q⌉

/-- Storage into an Int16Array: wrap modulo 2^16 into [-32768, 32767]. -/
def toInt16 (n : ℤ) : ℤ := (n + 32768).emod 65536 - 32768

/-- One sample through `int16[i] = data[i] * 32768`. -/
def encodeSample (x : ℚ) : ℤ := toInt16 (jsTrunc (x * 32768))

/-- The two little-endian bytes of a signed 16-bit value. -/
def int16ToBytes (v : ℤ) : List Nat :=
  [(v.emod 65536).toNat % 256, (v.emod 65536).toNat / 256]

/-- Transcription of `createBlob`: quantize every sample to 16-bit signed PCM
and emit the little-endian byte stream (`new Uint8Array(int16.buffer)`). -/
def createBlob : List ℚ → List Nat
  | [] => []
  | x :: rest => int16ToBytes (encodeSample x) ++ createBlob rest

/-- Reinterpret two little-endian bytes as a signed 16-bit integer, as
`new Int16Array(data.buffer)` does. -/
def bytesToInt16 (b0 b1 : Nat) : ℤ :=
  if b0 + 256 * b1 < 32768 then ((b0 + 256 * b1 : Nat) : ℤ)
  else ((b0 + 256 * b1 : Nat) : ℤ) - 65536

/-- Transcription of the mono case of `decodeAudioData`: walk the bytes two at
a time (a trailing odd byte is ignored by the `Int16Array` view) and divide
each 16-bit value by 32768. -/
def bytesToSamples : List Nat → List ℚ
  | b0 :: b1 :: rest => ((bytesToInt16 b0 b1 : ℚ) / 32768) :: bytesToSamples rest
  | _ => []

/-- The decode direction `decodeAudioData` applied to a received byte stream. -/
def decodeAudioData (bytes : List Nat) : List ℚ := bytesToSamples bytes

/-! ## Capture-side resampler (the `onaudioprocess` downsampling loop,
src/unnamed/part_002 lines 178-205 and src/unnamed/part_003 lines 964-980) -/

/-- Transcription of the resampling branch of `onaudioprocess`: when the
context rate differs from the target rate, take `newLength =
Math.floor(len / (currentRate / targetRate))` samples, each read at index
`Math.floor(i * (currentRate / targetRate))` of the input block. -/
def onaudioprocessResample (inputData : List ℚ) (currentRate targetRate : Nat) : List ℚ :=
  if currentRate = targetRate then inputData
  else
    let r : ℚ := (currentRate : ℚ) / (targetRate : ℚ)
    let newLength : ℕ := (⌊(inputData.length : ℚ) / r⌋).toNat
    (List.range newLength).map (fun (i : ℕ) => inputData.getD ((⌊(i : ℚ) * r⌋).toNat) 0)

/-- Following the specification text of §4.1, for comparison with the code's
resampler: output length `round(len * Rout / Rin)`, and output sample `i`
linearly interpolated between the floor and ceil neighbours of the source
position `i * (Rin / Rout)`, the ceil clamped to the last valid index. -/
def resampleSpecLinear (inputData : List ℚ) (rIn rOut : Nat) : List ℚ :=
  if rIn = rOut then inputData
  else
    let len := inputData.length
    let n : ℕ := (round ((len : ℚ) * rOut / rIn)).toNat
    (List.range n).map (fun (i : ℕ) =>
      let p : ℚ := (i : ℚ) * rIn / rOut
      let lo : ℕ := (⌊p⌋).toNat
      let hi : ℕ := min (lo + 1) (len - 1)
      let frac : ℚ := p - (⌊p⌋ : ℚ)
      (1 - frac) * inputData.getD lo 0 + frac * inputData.getD hi 0)

/-! ## Network quality estimator -/

inductive QualityTier where
  | unknown | poor | good | excellent
  deriving DecidableEq, Repr

/-- Modelled from the spec: no inter-arrival-gap classifier exists anywhere in
the source tree (the spec's Network Quality Estimator, §4.6, has no
implementation), so the definition follows the specification's words: before
any frame has arrived the tier is Unknown; otherwise the gap between the
current arrival time and the previous one is classified with the ordered
thresholds gap > 500 ms ↦ Poor, 200 ms < gap ≤ 500 ms ↦ Good,
gap ≤ 200 ms ↦ Excellent. -/
def qualityTier (lastFrameArrival : Option ℚ) (now : ℚ) : QualityTier :=
  match lastFrameArrival with
  | none => .unknown
  | some t =>
      let gap := now - t
      if gap > 500 then .poor
      else if gap > 200 then .good
      else .excellent

/-! ## Helper lemmas about the scheduler -/

/-- A non-interrupt event of nonnegative effective duration never moves the
playback cursor backwards. -/
theorem nextStart_le_schedStep (s : SchedState) (e : SchedEvent)
    (hni : notInterrupt e) (hd : durNonneg e) :
    s.nextStart ≤ (schedStep s e).nextStart := by
  cases e with
  | frame now dur speed =>
      simp only [durNonneg] at hd
      simp only [schedStep]
      split
      · linarith
      · linarith
  | ended b => exact le_refl _
  | interrupt now => simp [notInterrupt] at hni

/-- The scheduler invariant is preserved by every event of nonnegative
effective duration. -/
theorem schedInv_schedStep (s : SchedState) (e : SchedEvent)
    (hd : durNonneg e) (h : SchedInv s) : SchedInv (schedStep s e) := by
  obtain ⟨hpw, hend⟩ := h
  cases e with
  | frame now dur speed =>
      simp only [durNonneg] at hd
      simp only [schedStep, SchedInv]
      have hns : s.nextStart ≤ if s.nextStart < now then now else s.nextStart := by
        split
        · linarith
        · linarith
      set ns := if s.nextStart < now then now else s.nextStart with hnsdef
      constructor
      · refine List.pairwise_cons.mpr ⟨?_, hpw⟩
        intro b hb hov
        have h1 : b.1 + b.2 ≤ s.nextStart := hend b hb
        have h2 : min (ns + dur / speed) (b.1 + b.2) ≤ b.1 + b.2 := min_le_right _ _
        have h3 : ns ≤ max ns b.1 := le_max_left _ _
        simp only [bufOverlap] at hov
        linarith
      · intro b hb
        rcases List.mem_cons.mp hb with hb | hb
        · subst hb; linarith
        · have := hend b hb; linarith
  | ended b =>
      refine ⟨List.Pairwise.sublist (s.scheduled.erase_sublist b) hpw, ?_⟩
      intro c hc
      exact hend c (List.mem_of_mem_erase hc)
  | interrupt now =>
      exact ⟨List.Pairwise.nil, by intro b hb; simp [schedStep] at hb⟩

/-- Cursor monotonicity over a whole run of interrupt-free events. -/
theorem nextStart_le_schedRun (s : SchedState) (evts : List SchedEvent)
    (h : ∀ e ∈ evts, notInterrupt e ∧ durNonneg e) :
    s.nextStart ≤ (schedRun s evts).nextStart := by
  induction evts generalizing s with
  | nil => exact le_refl _
  | cons e evts ih =>
      have h1 := h e (List.mem_cons_self e evts)
      have h2 : ∀ e' ∈ evts, notInterrupt e' ∧ durNonneg e' :=
        fun e' he' => h e' (List.mem_cons_of_mem e he')
      calc s.nextStart ≤ (schedStep s e).nextStart :=
              nextStart_le_schedStep s e h1.1 h1.2
        _ ≤ (schedRun (schedStep s e) evts).nextStart := ih (schedStep s e) h2

/-- The scheduler invariant is preserved by a whole run. -/
theorem schedInv_schedRun (s : SchedState) (evts : List SchedEvent)
    (h : ∀ e ∈ evts, durNonneg e) (hI : SchedInv s) :
    SchedInv (schedRun s evts) := by
  induction evts generalizing s with
  | nil => exact hI
  | cons e evts ih =>
      exact ih (schedStep s e)
        (fun e' he' => h e' (List.mem_cons_of_mem e he'))
        (schedInv_schedStep s e (h e (List.mem_cons_self e evts)) hI)

/-! ## Claim C1 (Playback Scheduler, underrun handling) -/

/-- C1 counterexample: the claim states that a frame arriving after the
cursor has passed (`nextStart < now`) is scheduled at `now + LEAD` for some
fixed positive safety margin LEAD.  The code (AudioCompanion.tsx line 123)
resets the cursor to `now` itself with no margin: no positive LEAD satisfies
the claimed property, refuted at the state with cursor 0 and a frame arriving
at clock time 1. -/
theorem C1_counterexample :
    ¬ ∃ lead : ℚ, 0 < lead ∧
      ∀ (s : SchedState) (now dur speed : ℚ), s.nextStart < now →
        (schedStep s (.frame now dur speed)).scheduled.head? =
          some (now + lead, dur / speed) := by
  rintro ⟨lead, hlead, h⟩
  have h1 := h ⟨0, []⟩ 1 1 1 (by norm_num)
  norm_num [schedStep] at h1
  have h2 := congrArg Prod.fst h1
  simp at h2
  linarith

/-- C1 amended: for every inbound decoded frame that arrives after the
playback cursor has already passed (`nextStart < now`, an underrun), the frame
is scheduled to start exactly at `now` (the cursor is reset to the current
output-clock time, with no lead margin), and the cursor then advances to
`now` plus the frame's effective duration. -/
theorem C1_amended (s : SchedState) (now dur speed : ℚ)
    (h : s.nextStart < now) :
    (schedStep s (.frame now dur speed)).scheduled.head? =
        some (now, dur / speed) ∧
    (schedStep s (.frame now dur speed)).nextStart = now + dur / speed := by
  simp [schedStep, if_pos h]

/-- C1 witness: the amended theorem applied at a concrete underrun (cursor 0,
frame arriving at clock time 1 with duration 2 at speed 1). -/
theorem C1_amended_witness :
    (schedStep ⟨0, []⟩ (.frame 1 2 1)).scheduled.head? = some (1, 2 / 1) ∧
    (schedStep ⟨0, []⟩ (.frame 1 2 1)).nextStart = 1 + 2 / 1 :=
  C1_amended ⟨0, []⟩ 1 2 1 (by norm_num)

/-! ## Claim C2 (Playback Scheduler, interruption flush) -/

/-- C2: on the interrupted signal the scheduler clears the whole scheduled
set (after stopping every buffer in it), resets the cursor to the current
output-clock time `now` — not to zero — and a frame arriving at that same
clock time is scheduled to begin exactly at `now`, not at any previously
computed cursor value (AudioCompanion.tsx lines 151-156). -/
theorem C2_interrupt_flush (s : SchedState) (now dur speed : ℚ) :
    (schedStep s (.interrupt now)).scheduled = [] ∧
    (schedStep s (.interrupt now)).nextStart = now ∧
    (schedStep (schedStep s (.interrupt now)) (.frame now dur speed)).scheduled.head? =
      some (now, dur / speed) := by
  refine ⟨rfl, rfl, ?_⟩
  simp [schedStep]

/-! ## Claim C3 (playback monotonicity and non-overlap) -/

/-- C3 counterexample: the claim asserts `nextStart` is monotonically
non-decreasing across sequences that include Interrupted events.  Starting
from the initial state, a frame of duration 1 arriving at clock time 0 moves
the cursor to 1; an interruption at clock time 1/2 then resets the cursor to
1/2, a strict decrease. -/
theorem C3_counterexample :
    (schedRun ⟨0, []⟩ [.frame 0 1 1]).nextStart = 1 ∧
    (schedRun ⟨0, []⟩ [.frame 0 1 1, .interrupt (1/2)]).nextStart = 1/2 ∧
    (schedRun ⟨0, []⟩ [.frame 0 1 1, .interrupt (1/2)]).nextStart <
      (schedRun ⟨0, []⟩ [.frame 0 1 1]).nextStart := by
  norm_num [schedRun, schedStep]

/-- C3 amended: across any sequence of inbound frames (with arbitrary arrival
times and nonnegative effective durations) containing no Interrupted event,
the playback cursor is non-decreasing; and across arbitrary sequences —
Interrupted events included — the in-flight scheduled buffers remain pairwise
non-overlapping in output-clock time, each ending at or before the cursor. -/
theorem C3_amended :
    (∀ (s : SchedState) (evts : List SchedEvent),
       (∀ e ∈ evts, notInterrupt e ∧ durNonneg e) →
       s.nextStart ≤ (schedRun s evts).nextStart) ∧
    (∀ (s : SchedState) (evts : List SchedEvent),
       (∀ e ∈ evts, durNonneg e) → SchedInv s → SchedInv (schedRun s evts)) :=
  ⟨nextStart_le_schedRun, schedInv_schedRun⟩

/-- C3 witness: both parts of the amended theorem applied to the concrete
one-frame run starting from the initial state. -/
theorem C3_amended_witness :
    (⟨0, []⟩ : SchedState).nextStart ≤ (schedRun ⟨0, []⟩ [.frame 0 1 1]).nextStart ∧
    SchedInv (schedRun ⟨0, []⟩ [.frame 0 1 1]) :=
  ⟨C3_amended.1 ⟨0, []⟩ [.frame 0 1 1]
      (by
        intro e he
        rw [List.mem_singleton] at he
        subst he
        exact ⟨trivial, by norm_num [durNonneg]⟩),
   C3_amended.2 ⟨0, []⟩ [.frame 0 1 1]
      (by
        intro e he
        rw [List.mem_singleton] at he
        subst he
        norm_num [durNonneg])
      ⟨List.Pairwise.nil, by intro b hb; simp at hb⟩⟩

/-! ## Helper lemmas about the PCM codec -/

/-- The Int16Array coercion always lands in the signed 16-bit range. -/
theorem toInt16_range (n : ℤ) : -32768 ≤ toInt16 n ∧ toInt16 n ≤ 32767 := by
  unfold toInt16
  rw [show (n + 32768).emod 65536 = (n + 32768) % 65536 from rfl]
  omega

/-- The Int16Array coercion is the identity on the signed 16-bit range. -/
theorem toInt16_eq_self (n : ℤ) (h1 : -32768 ≤ n) (h2 : n ≤ 32767) :
    toInt16 n = n := by
  unfold toInt16
  rw [show (n + 32768).emod 65536 = (n + 32768) % 65536 from rfl]
  omega

/-- Reading back the two little-endian bytes of an in-range signed 16-bit
value recovers it. -/
theorem bytesToInt16_int16ToBytes (v : ℤ) (h1 : -32768 ≤ v) (h2 : v ≤ 32767) :
    bytesToInt16 ((v.emod 65536).toNat % 256) ((v.emod 65536).toNat / 256) = v := by
  unfold bytesToInt16
  rw [show v.emod 65536 = v % 65536 from rfl]
  split <;> omega

/-- Decoding an encoded frame yields exactly the quantized samples. -/
theorem decode_createBlob (data : List ℚ) :
    decodeAudioData (createBlob data) =
      data.map (fun x => ((encodeSample x : ℚ) / 32768)) := by
  induction data with
  | nil => rfl
  | cons x rest ih =>
      have hr := toInt16_range (jsTrunc (x * 32768))
      have hv : bytesToInt16 (((encodeSample x).emod 65536).toNat % 256)
          (((encodeSample x).emod 65536).toNat / 256) = encodeSample x :=
        bytesToInt16_int16ToBytes _ hr.1 hr.2
      simp only [createBlob, int16ToBytes, decodeAudioData, List.append_eq,
        List.cons_append, List.nil_append, bytesToSamples, List.map] at *
      rw [hv, ih]

/-- Quantization error of one sample in [-1, 1): storing
`trunc(x * 32768)` in an Int16Array and dividing by 32768 reproduces `x`
within strictly less than 1/32768. -/
theorem encodeSample_quantization (x : ℚ) (h1 : -1 ≤ x) (h2 : x < 1) :
    |((encodeSample x : ℚ) / 32768) - x| < 1 / 32768 := by
  have hq1 : -32768 ≤ x * 32768 := by linarith
  have hq2 : x * 32768 < 32768 := by linarith
  have key : ∀ n : ℤ, jsTrunc (x * 32768) = n → -32768 ≤ n → n ≤ 32767 →
      |((n : ℚ)) - x * 32768| < 1 → |((encodeSample x : ℚ) / 32768) - x| < 1 / 32768 := by
    intro n hn hlo hhi hclose
    have he : encodeSample x = n := by
      unfold encodeSample
      rw [hn]
      exact toInt16_eq_self n hlo hhi
    rw [he]
    have hrw : (n : ℚ) / 32768 - x = ((n : ℚ) - x * 32768) / 32768 := by ring
    rw [hrw, abs_div, abs_of_pos (by norm_num : (0:ℚ) < 32768)]
    have h32 : (0:ℚ) < 32768 := by norm_num
    exact (div_lt_div_iff_of_pos_right h32).mpr hclose
  by_cases hq : 0 ≤ x * 32768
  · have hn : jsTrunc (x * 32768) = ⌊x * 32768⌋ := if_pos hq
    have hfl : (0:ℤ) ≤ ⌊x * 32768⌋ := Int.floor_nonneg.mpr hq
    have hfu : ⌊x * 32768⌋ < 32768 := by
      rw [Int.floor_lt]
      exact_mod_cast hq2
    have hle : (⌊x * 32768⌋ : ℚ) ≤ x * 32768 := Int.floor_le _
    have hgt : x * 32768 < (⌊x * 32768⌋ : ℚ) + 1 := Int.lt_floor_add_one _
    refine key ⌊x * 32768⌋ hn (by omega) (by omega) ?_
    rw [abs_sub_lt_iff]
    constructor <;> linarith
  · push_neg at hq
    have hn : jsTrunc (x * 32768) = ⌈x * 32768⌉ := if_neg (by linarith)
    have hcu : ⌈x * 32768⌉ ≤ 0 := Int.ceil_le.mpr (by push_cast; linarith)
    have hge : x * 32768 ≤ (⌈x * 32768⌉ : ℚ) := Int.le_ceil _
    have hlt : (⌈x * 32768⌉ : ℚ) < x * 32768 + 1 := Int.ceil_lt_add_one _
    have hcl : -32768 ≤ ⌈x * 32768⌉ := by
      have : ((-32768 : ℤ) : ℚ) ≤ (⌈x * 32768⌉ : ℚ) := by push_cast; linarith
      exact_mod_cast this
    refine key ⌈x * 32768⌉ hn hcl (by omega) ?_
    rw [abs_sub_lt_iff]
    constructor <;> linarith

/-! ## Claim C4 (encoder/decoder round-trip) -/

/-- C4 counterexample: the claim quantifies over frames with samples in the
closed interval [-1, 1], but the sample 1 is not reproduced within 1/32768:
`1 * 32768 = 32768` wraps around in the Int16Array to -32768, so the decoded
sample is -1, an absolute error of 2. -/
theorem C4_counterexample :
    ¬ ∀ (data : List ℚ), (∀ x ∈ data, -1 ≤ x ∧ x ≤ 1) →
      List.Forall₂ (fun y x => |y - x| ≤ 1 / 32768)
        (decodeAudioData (createBlob data)) data := by
  intro h
  have h1 := h [1] (by
    intro x hx
    rw [List.mem_singleton] at hx
    subst hx
    norm_num)
  have e0 : jsTrunc ((32768 : ℚ)) = 32768 := by
    unfold jsTrunc
    norm_num
  have e1 : toInt16 32768 = -32768 := by decide
  have h2 : decodeAudioData (createBlob [1]) = [-1] := by
    rw [decode_createBlob]
    simp [encodeSample, e0, e1]
  rw [h2] at h1
  cases h1 with
  | cons hpair _ => norm_num at hpair

/-- C4 amended: for every frame of samples each in the half-open interval
[-1, 1), decoding the encoded frame reproduces every sample within strictly
less than 1/32768 absolute error — quantization only.  (The right endpoint 1
itself is excluded: it wraps around, see the counterexample.) -/
theorem C4_amended (data : List ℚ) (h : ∀ x ∈ data, -1 ≤ x ∧ x < 1) :
    List.Forall₂ (fun y x => |y - x| < 1 / 32768)
      (decodeAudioData (createBlob data)) data := by
  rw [decode_createBlob]
  induction data with
  | nil => exact List.Forall₂.nil
  | cons x rest ih =>
      have hx := h x (List.mem_cons_self x rest)
      exact List.Forall₂.cons (encodeSample_quantization x hx.1 hx.2)
        (ih fun y hy => h y (List.mem_cons_of_mem x hy))

/-- C4 witness: the amended theorem applied to the concrete frame [1/2, -1]. -/
theorem C4_amended_witness :
    List.Forall₂ (fun y x => |y - x| < 1 / 32768)
      (decodeAudioData (createBlob [1/2, -1])) [1/2, -1] :=
  C4_amended [1/2, -1] (by
    intro x hx
    rcases List.mem_cons.mp hx with hx | hx
    · subst hx; norm_num
    · rw [List.mem_singleton] at hx; subst hx; norm_num)

/-! ## Claim C5 (capture-side resampler) -/

/-- C5 counterexample: the claim describes the resampler as returning
`round(len * Rout / Rin)` linearly interpolated samples; the code instead
takes `floor(len / (Rin/Rout))` samples by nearest-lower-neighbour selection.
On the frame [0, 0, 1, 0] resampled from 24000 Hz to 16000 Hz the code
produces 2 samples while the specified resampler produces
`round(8/3) = 3`, so the two functions differ. -/
theorem C5_counterexample :
    ¬ ∀ (data : List ℚ) (rIn rOut : Nat), 0 < rIn → 0 < rOut →
      onaudioprocessResample data rIn rOut = resampleSpecLinear data rIn rOut := by
  intro h
  have h0 := h [0, 0, 1, 0] 24000 16000 (by norm_num) (by norm_num)
  have h1 : (onaudioprocessResample [0, 0, 1, 0] 24000 16000).length = 2 := by
    norm_num [onaudioprocessResample]
    rfl
  have h2 : (resampleSpecLinear [0, 0, 1, 0] 24000 16000).length = 3 := by
    rw [resampleSpecLinear]
    rw [if_neg (by norm_num : ¬ (24000 = 16000))]
    simp only [List.length_map, List.length_range, List.length_cons, List.length_nil]
    norm_num [round_eq]
    rfl
  rw [h0, h2] at h1
  exact absurd h1 (by norm_num)

/-- C5 amended: when the two rates are equal the resampler returns the input
frame itself; otherwise, for positive rates, it returns
`floor(len * Rout / Rin)` samples (floor, not round) and output sample `i` is
the single input sample at index `floor(i * Rin / Rout)` — the nearest lower
neighbour, with no linear interpolation. -/
theorem C5_amended :
    (∀ (data : List ℚ) (r : Nat), onaudioprocessResample data r r = data) ∧
    (∀ (data : List ℚ) (rIn rOut : Nat), rIn ≠ rOut →
      (onaudioprocessResample data rIn rOut).length =
        (⌊(data.length * rOut : ℚ) / rIn⌋).toNat) ∧
    (∀ (data : List ℚ) (rIn rOut : Nat), rIn ≠ rOut →
      ∀ i : Nat, i < (onaudioprocessResample data rIn rOut).length →
        (onaudioprocessResample data rIn rOut).getD i 0 =
          data.getD ((⌊(i : ℚ) * rIn / rOut⌋).toNat) 0) := by
  refine ⟨?_, ?_, ?_⟩
  · intro data r
    simp [onaudioprocessResample]
  · intro data rIn rOut hne
    simp only [onaudioprocessResample, if_neg hne, List.length_map, List.length_range]
    congr 2
    rw [div_div_eq_mul_div]
  · intro data rIn rOut hne i hi
    simp only [onaudioprocessResample, if_neg hne, List.length_map,
      List.length_range] at hi ⊢
    rw [List.getD_eq_getElem?_getD, List.getElem?_map, List.getElem?_range hi]
    simp [mul_div_assoc]

/-- C5 witness: the amended theorem applied to the frame [1, 2, 3, 4]
downsampled from 48000 Hz to 16000 Hz (one output sample, taken at source
index 0), and to the identity fast path at 44100 Hz. -/
theorem C5_amended_witness :
    onaudioprocessResample [5] 44100 44100 = [5] ∧
    (onaudioprocessResample [1, 2, 3, 4] 48000 16000).length =
      (⌊(([1, 2, 3, 4] : List ℚ).length * 16000 : ℚ) / 48000⌋).toNat ∧
    (onaudioprocessResample [1, 2, 3, 4] 48000 16000).getD 0 0 =
      [1, 2, 3, 4].getD ((⌊((0 : ℚ)) * 48000 / 16000⌋).toNat) 0 :=
  ⟨C5_amended.1 [5] 44100,
   C5_amended.2.1 [1, 2, 3, 4] 48000 16000 (by norm_num),
   C5_amended.2.2 [1, 2, 3, 4] 48000 16000 (by norm_num) 0 (by
      norm_num [onaudioprocessResample])⟩

/-! ## Claim C6 (teardown idempotence and the stop/connect race) -/

/-- C6 evaluation at the failing input: stopping twice from the `Connecting`
state is idempotent and leaves every device and transport handle released
(the claim's first half holds), but when the in-flight transport `onopen`
callback then resolves, the code — with no generation/staleness check — sets
the status back to `connected`, marks the session active, and rewires the
capture input, instead of ignoring the stale connection attempt as the claim
requires. -/
theorem C6_stop_race_eval :
    stopSession (stopSession connectingState) = stopSession connectingState ∧
    (stopSession connectingState).micTracksLive = false ∧
    (stopSession connectingState).inputCtxOpen = false ∧
    (stopSession connectingState).outputCtxOpen = false ∧
    (stopSession connectingState).processorConnected = false ∧
    (stopSession connectingState).inputSourceConnected = false ∧
    (stopSession connectingState).sourcesCount = 0 ∧
    (stopSession connectingState).transportCloseRequested = true ∧
    (stopSession connectingState).status = ConnectionStatus.disconnected ∧
    (handleOpen (stopSession connectingState)).status = ConnectionStatus.connected ∧
    (handleOpen (stopSession connectingState)).isActive = true ∧
    (handleOpen (stopSession connectingState)).processorConnected = true := by
  decide

/-! ## Claim C7 (terminal state after a fatal error) -/

/-- C7 counterexample: the claim says teardown leaves the state as `Error`
when it was set moments earlier, so the reported terminal state after a fatal
transport error is `Error`.  In the code the `onerror` handler sets `error`
and then calls `stopSession`, whose final step unconditionally sets
`disconnected`; evaluated on a connected session, the terminal status is
`disconnected`, not `error`. -/
theorem C7_counterexample :
    (handleTransportError (handleOpen connectingState)).status =
        ConnectionStatus.disconnected ∧
    ¬ (handleTransportError (handleOpen connectingState)).status =
        ConnectionStatus.error := by
  decide

/-- C7 amended: on every fatal failure (transport error or start-up failure)
the handler records the reason in `errorMessage` and performs full teardown —
every device and transport handle is released — but the terminal value of
`status` is `Disconnected`, because `stopSession` sets it unconditionally;
`Error` is only observable transiently before teardown runs.  The reason
survives in `errorMessage`, which teardown never clears. -/
theorem C7_amended (s : SessionState) (msg : String) :
    (handleTransportError s).status = ConnectionStatus.disconnected ∧
    (handleTransportError s).errorMessage = "Connection error." ∧
    (handleTransportError s).processorConnected = false ∧
    (handleTransportError s).inputSourceConnected = false ∧
    (handleTransportError s).micTracksLive = false ∧
    (handleTransportError s).inputCtxOpen = false ∧
    (handleTransportError s).outputCtxOpen = false ∧
    (handleTransportError s).sourcesCount = 0 ∧
    (handleTransportError s).transportCloseRequested = true ∧
    (handleStartFailure s msg).status = ConnectionStatus.disconnected ∧
    (handleStartFailure s msg).errorMessage = msg := by
  simp [handleTransportError, handleStartFailure, stopSession]

/-! ## Claim C8 (network quality estimator) -/

/-- C8: the estimator classifies the inter-arrival gap with the ordered
thresholds — a gap above 500 yields Poor, a gap in (200, 500] yields Good, a
gap at most 200 yields Excellent — and before any frame has arrived the tier
is Unknown.  (Times in milliseconds.) -/
theorem C8_quality_thresholds :
    (∀ now : ℚ, qualityTier none now = QualityTier.unknown) ∧
    (∀ t now : ℚ, now - t > 500 → qualityTier (some t) now = QualityTier.poor) ∧
    (∀ t now : ℚ, 200 < now - t → now - t ≤ 500 →
        qualityTier (some t) now = QualityTier.good) ∧
    (∀ t now : ℚ, now - t ≤ 200 → qualityTier (some t) now = QualityTier.excellent) := by
  refine ⟨fun now => rfl, ?_, ?_, ?_⟩
  · intro t now h
    simp only [qualityTier]
    rw [if_pos h]
  · intro t now h1 h2
    simp only [qualityTier]
    rw [if_neg (not_lt.mpr h2), if_pos h1]
  · intro t now h
    simp only [qualityTier]
    rw [if_neg (not_lt.mpr (by linarith)), if_neg (not_lt.mpr h)]

/-- C8 witness: the thresholds theorem applied to the spec's concrete gaps of
600 ms, 250 ms and 50 ms, and to the before-first-frame state. -/
theorem C8_quality_thresholds_witness :
    qualityTier none 0 = QualityTier.unknown ∧
    qualityTier (some 0) 600 = QualityTier.poor ∧
    qualityTier (some 0) 250 = QualityTier.good ∧
    qualityTier (some 0) 50 = QualityTier.excellent :=
  ⟨C8_quality_thresholds.1 0,
   C8_quality_thresholds.2.1 0 600 (by norm_num),
   C8_quality_thresholds.2.2.1 0 250 (by norm_num) (by norm_num),
   C8_quality_thresholds.2.2.2 0 50 (by norm_num)⟩

/-! ## Claim C9 (transcript flush on turn completion and interruption) -/

/-- C9 counterexample: the claim says that on an Interrupted event the core
flushes the non-empty (user, model) pair and resets both accumulators.  The
interrupted branch of the `onmessage` handler touches only the playback
state: with accumulated text present, nothing is saved and the accumulators
are unchanged. -/
theorem C9_counterexample :
    ¬ ∀ (language : String) (s : TranscriptState),
        (jsTrim s.user ≠ "" ∨ jsTrim s.model ≠ "") →
        (transcriptStep language s .interrupted).2 ≠ [] ∧
        (transcriptStep language s .interrupted).1 = ⟨"", ""⟩ := by
  intro h
  have h1 := h ("en") ⟨"hi", "there"⟩ (Or.inl (by decide))
  exact h1.1 rfl

/-- C9 amended: on TurnComplete the accumulated (user, model) pair is flushed
to the history store exactly when at least one side is non-blank, and both
accumulators are reset in every case; on Interrupted, nothing is flushed and
the accumulators are left untouched (they carry over to the next turn). -/
theorem C9_amended (language : String) (s : TranscriptState) :
    ((jsTrim s.user ≠ "" ∨ jsTrim s.model ≠ "") →
      transcriptStep language s .turnComplete =
        (⟨"", ""⟩, [⟨"LIVE", s.user, s.model, language⟩])) ∧
    ((jsTrim s.user = "" ∧ jsTrim s.model = "") →
      transcriptStep language s .turnComplete = (⟨"", ""⟩, [])) ∧
    transcriptStep language s .interrupted = (s, []) := by
  refine ⟨?_, ?_, rfl⟩
  · intro h
    simp only [transcriptStep]
    rw [if_pos h]
  · intro h
    simp only [transcriptStep]
    rw [if_neg (by simp [h.1, h.2])]

/-- C9 witness: the amended theorem applied to a turn with user text and to a
turn whose texts are whitespace only. -/
theorem C9_amended_witness :
    transcriptStep ("en") ⟨"hi", ""⟩ .turnComplete =
      (⟨"", ""⟩, [⟨"LIVE", "hi", "", "en"⟩]) ∧
    transcriptStep ("en") ⟨" ", ""⟩ .turnComplete = (⟨"", ""⟩, []) ∧
    transcriptStep ("en") ⟨"hi", "there"⟩ .interrupted = (⟨"hi", "there"⟩, []) :=
  ⟨(C9_amended ("en") ⟨"hi", ""⟩).1 (Or.inl (by decide)),
   (C9_amended ("en") ⟨" ", ""⟩).2.1 (by exact ⟨by decide, by decide⟩),
   (C9_amended ("en") ⟨"hi", "there"⟩).2.2⟩

/-! ## Claim C10 (history cache bound, position and de-duplication) -/

/-- C10: after every `saveToCache` the persisted history holds at most 50
items; the newly saved item — carrying the trimmed query — is first; and no
other remaining item has a query equal to the new item's trimmed query under
case-insensitive comparison (earlier entries for the same query are silently
replaced, so the store is not append-only). -/
theorem C10_saveToCache_invariant (now : Nat) (tool query result language : String)
    (existing : List HistoryItem) :
    (saveToCache now tool query result language existing).length ≤ 50 ∧
    (saveToCache now tool query result language existing).head? =
      some { id := toString now, timestamp := now, tool := tool
             query := jsTrim query, result := result, language := language } ∧
    ∀ item ∈ (saveToCache now tool query result language existing).tail,
      lowerStr item.query ≠ lowerStr (jsTrim query) := by
  refine ⟨List.length_take_le _ _, rfl, ?_⟩
  intro item hitem
  have hitem' : item ∈ (existing.filter
      (fun it => lowerStr it.query != lowerStr (jsTrim query))).take 49 := hitem
  have h2 : item ∈ existing.filter
      (fun it => lowerStr it.query != lowerStr (jsTrim query)) :=
    List.take_subset 49 _ hitem'
  have h3 := List.of_mem_filter h2
  exact bne_iff_ne.mp h3
